import Mathlib

/-!
Verification of the rotation-and-tunnel-supervision engine of the
wireguard-socks5-proxy repository.

The development shallowly embeds the core TypeScript modules:

* `state.ts`  (src/unnamed/part_005): the durable per-client rotation state
  (`ClientState`, `loadState` / `saveState` / `initializeClientState` /
  `updateClientProxy`).
* `proxy.ts`  (src/unnamed/part_002, first segment): the selection algorithm
  (`selectFreshestProxy`), the rotation coordinator (`rotateProxyForClient`,
  `assignProxyToClient`), the scheduler tick body (`checkAndRotateProxies`)
  and `getCurrentProxy`.
* `tunnel.ts` (src/unnamed/part_002, third segment): the per-client process
  supervisor (`startTun2SocksProcess`, `handleTunnelFailure`).

Modelling conventions, stated once here:

* ISO-8601 timestamp strings are represented by their parsed millisecond
  value as an `Int` (JavaScript `Date` comparison compares exactly this
  value; pre-epoch instants are negative).  The empty string stored in
  `last_rotation` by `initializeClientState` parses to `NaN` in JavaScript;
  every `NaN` comparison is `false`, which we represent by `Option Int` with
  `none` for the unparseable case.
* The JavaScript object maps `proxy_usage_dates` and `state.clients` are
  represented by association lists looked up by key.
* Effects are made explicit: file-system writes are represented by a
  `writeOk : Bool` environment flag (whether `writeFileSync` succeeds), the
  tunnel swap by a returned list of `TunnelAction`s, and the Telegram
  notification by a returned `Bool`.  A thrown exception is represented by
  the `SaveResult.ioError` component of the result; the only modelled throw
  source on the rotation path is `saveState`, which re-throws a failed
  write after logging it.
-/

namespace WGProxy

/-- A relay from the configuration (`ProxySchema` in config.ts):
a SOCKS5 url plus a location tag.  The zod schema validates
`location: z.string().min(1)`, so configuration-sourced pools have
non-empty location tags. -/
structure Proxy where
  url : String
  location : String
deriving Repr, DecidableEq

/-- One entry of `rotation_history` (state.ts). -/
structure RotationHistoryEntry where
  timestamp : Int
  old_proxy : String
  new_proxy : String
  old_location : String
  new_location : String
deriving Repr, DecidableEq

/-- Per-client rotation state (interface `ClientState` in state.ts).
`last_rotation` is an ISO string in the source; `none` stands for the
initial empty string (which parses to `NaN`). -/
structure ClientState where
  current_proxy : String
  current_location : String
  last_location : String
  last_rotation : Option Int
  proxy_usage_dates : List (String × Int)
  rotation_history : List RotationHistoryEntry
deriving Repr, DecidableEq

/-- The `clients` mapping of the state document (interface `State`). -/
abbrev StateMap : Type := List (String × ClientState)

/-- Lookup in a string-keyed association list (JavaScript object map read). -/
def lookupDate (m : List (String × Int)) (k : String) : Option Int :=
  (m.find? (fun p => p.fst == k)).map Prod.snd

/-- JavaScript object map write `m[k] = v`: overwrite the existing entry in
place, or append a new one. -/
def setDate (m : List (String × Int)) (k : String) (v : Int) : List (String × Int) :=
  if (m.find? (fun p => p.fst == k)).isSome then
    m.map (fun p => if p.fst == k then (k, v) else p)
  else
    m ++ [(k, v)]

/-- `getClientState` (state.ts line 106): `state.clients[clientName]`. -/
def getClientState (st : StateMap) (name : String) : Option ClientState :=
  ((st : List (String × ClientState)).find? (fun p => p.fst == name)).map Prod.snd

/-- Overwrite the entry of an existing client in the state document. -/
def setClientState (st : StateMap) (name : String) (cs : ClientState) : StateMap :=
  (st : List (String × ClientState)).map (fun p => if p.fst == name then (name, cs) else p)

/-- The fresh state written by `initializeClientState` (state.ts lines
115-122): empty strings for proxy and locations, empty usage map and
history. -/
def defaultClientState : ClientState :=
  { current_proxy := ""
    current_location := ""
    last_location := ""
    last_rotation := none
    proxy_usage_dates := []
    rotation_history := [] }

/-- `initializeClientState` (state.ts lines 111-128): create the client's
entry if absent and return it.  The un-awaited `saveState()` call inside it
produces at worst a rejected promise and does not affect this function's
control flow, so no write flag appears here. -/
def initializeClientState (st : StateMap) (name : String) : StateMap × ClientState :=
  match getClientState st name with
  | some cs => (st, cs)
  | none => (st ++ [(name, defaultClientState)], defaultClientState)

/-- Result of an awaited `saveState()` call. -/
inductive SaveResult where
  | ok
  | ioError
deriving Repr, DecidableEq

/-- `saveState` (state.ts lines 82-104): on a failed `writeFileSync` the
error is logged and then **re-thrown** (`throw error`, line 102), so an
awaiting caller sees the exception. -/
def saveState (writeOk : Bool) : SaveResult :=
  if writeOk then SaveResult.ok else SaveResult.ioError

/-- The history-cap update of `updateClientProxy` (state.ts lines 157-168):
push the entry, then `slice(-100)` when more than 100 entries are held
(JavaScript `slice(-100)` keeps the last 100 elements). -/
def pushHistory (hist : List RotationHistoryEntry) (entry : RotationHistoryEntry) :
    List RotationHistoryEntry :=
  let h := hist ++ [entry]
  if 100 < h.length then h.drop (h.length - 100) else h

/-- The pure per-client part of `updateClientProxy` (state.ts lines
140-169), applied to the client's in-memory `ClientState`:

* set `current_proxy`, `current_location`, `last_rotation` (lines 143-145);
* `if (location !== clientState.last_location) last_location =
  current_location` (lines 148-150) — note `current_location` was already
  overwritten with the new location on line 144;
* `proxy_usage_dates[proxyUrl] = now` (line 153);
* `if (oldProxy && oldProxy !== proxyUrl)` push a history entry and keep
  only the last 100 via `slice(-100)` (lines 156-168);
  `old_location: oldLocation || ''` maps an absent old location to `""`. -/
def applyProxyUpdate (cs : ClientState) (proxyUrl location : String)
    (oldProxy oldLocation : Option String) (now : Int) : ClientState :=
  let cs1 : ClientState :=
    { cs with current_proxy := proxyUrl, current_location := location, last_rotation := some now }
  let cs2 : ClientState :=
    if location ≠ cs1.last_location then { cs1 with last_location := cs1.current_location } else cs1
  let cs3 : ClientState :=
    { cs2 with proxy_usage_dates := setDate cs2.proxy_usage_dates proxyUrl now }
  match oldProxy with
  | some old =>
    if old ≠ "" ∧ old ≠ proxyUrl then
      { cs3 with
        rotation_history := pushHistory cs3.rotation_history
          { timestamp := now, old_proxy := old, new_proxy := proxyUrl,
            old_location := oldLocation.getD "", new_location := location } }
    else cs3
  | none => cs3

/-- `updateClientProxy` (state.ts lines 130-176) at the state-document
level: ensure the client exists, apply the in-memory mutation, then
`await saveState()`.  The mutation is applied to the cached document
*before* the write is attempted, so it survives a failed write; the
`SaveResult` component records whether the awaited `saveState` threw. -/
def updateClientProxy (st : StateMap) (name proxyUrl location : String)
    (oldProxy oldLocation : Option String) (now : Int) (writeOk : Bool) :
    StateMap × SaveResult :=
  let init := initializeClientState st name
  let cs' := applyProxyUpdate init.snd proxyUrl location oldProxy oldLocation now
  (setClientState init.fst name cs', saveState writeOk)

/-- Usage date used in the selection loop (proxy.ts lines 171-179): a
recorded ISO date is parsed, an absent entry becomes `new Date(0)`
(the epoch, value `0`). -/
def usageDateOf (dates : List (String × Int)) (url : String) : Int :=
  match lookupDate dates url with
  | some d => d
  | none => 0

/-- The `for (const proxy of availableProxies)` loop of
`selectFreshestProxy` (proxy.ts lines 167-185): keep the first proxy whose
usage date is strictly smaller than the best so far. -/
def freshestGo (dates : List (String × Int)) :
    Option (Proxy × Int) → List Proxy → Option (Proxy × Int)
  | acc, [] => acc
  | acc, p :: rest =>
    let d := usageDateOf dates p.url
    let acc' := match acc with
      | none => some (p, d)
      | some (q, dq) => if d < dq then some (p, d) else some (q, dq)
    freshestGo dates acc' rest

/-- The freshest-proxy pick over a candidate list. -/
def freshestFold (dates : List (String × Int)) (ps : List Proxy) : Option Proxy :=
  (freshestGo dates none ps).map Prod.fst

/-- The anti-repeat filter of `selectFreshestProxy` (proxy.ts lines
153-159): if `last_location` is truthy, drop proxies at that location, but
only when the filtered list is non-empty. -/
def antiRepeatFilter (pool : List Proxy) (lastLocation : String) : List Proxy :=
  if lastLocation ≠ "" then
    let diff := pool.filter (fun p => p.location != lastLocation)
    if 0 < diff.length then diff else pool
  else pool

/-- The candidate list of `selectFreshestProxy` (proxy.ts lines 147-160):
an exact-location filter when `preferredLocation` is truthy (JavaScript
truthiness: `undefined` and `""` both fall through to the anti-repeat
branch), else the anti-repeat filter. -/
def availableProxies (pool : List Proxy) (cs : ClientState)
    (preferredLocation : Option String) : List Proxy :=
  match preferredLocation with
  | some l =>
    if l ≠ "" then pool.filter (fun p => p.location == l)
    else antiRepeatFilter pool cs.last_location
  | none => antiRepeatFilter pool cs.last_location

/-- `selectFreshestProxy` (proxy.ts lines 143-188), as a pure function of
the pool, the client's state and the optional preferred location. -/
def selectFreshestProxy (pool : List Proxy) (cs : ClientState)
    (preferredLocation : Option String) : Option Proxy :=
  let available := availableProxies pool cs preferredLocation
  if available.length = 0 then none
  else freshestFold cs.proxy_usage_dates available

/-- `getCurrentProxy` (proxy.ts lines 190-201): `none` when the client has
no state or `current_proxy` is the falsy empty string. -/
def getCurrentProxy (st : StateMap) (name : String) : Option (String × String) :=
  match getClientState st name with
  | none => none
  | some cs =>
    if cs.current_proxy = "" then none else some (cs.current_proxy, cs.current_location)

/-- A visible action on the tunnel layer (tunnel.ts entry points invoked by
the coordinator): `startTun2Socks` or `restartClientTunnel`. -/
inductive TunnelAction where
  | start (clientName proxyUrl : String)
  | restart (clientName proxyUrl : String)
deriving Repr, DecidableEq

/-- Observable outcome of `rotateProxyForClient` / `assignProxyToClient`:
the state document after the call, the tunnel operations performed, whether
`notifyAutomaticRotation` was invoked, and whether the call threw. -/
structure RotateOutcome where
  state : StateMap
  tunnel : List TunnelAction
  notified : Bool
  result : SaveResult
deriving Repr, DecidableEq

/-- `rotateProxyForClient` (proxy.ts lines 80-122):

1. `getClientState(clientName) || await initializeClientState(clientName)`;
2. capture `oldProxy` / `oldLocation`;
3. select; on `null` log a warning and return — nothing changed;
4. `await updateClientProxy(...)` — a failed state write throws out of the
   call here, before any tunnel operation;
5. restart the tunnel if a proxy was already assigned, else start it;
6. if `isAutomatic && oldProxy`, call the notifier (its own failures are
   caught and logged on lines 116-120, so they never affect the result). -/
def rotateProxyForClient (pool : List Proxy) (writeOk : Bool) (now : Int)
    (st : StateMap) (clientName : String) (preferredLocation : Option String)
    (isAutomatic : Bool) : RotateOutcome :=
  let init := initializeClientState st clientName
  let clientState := init.snd
  let oldProxy := clientState.current_proxy
  match selectFreshestProxy pool clientState preferredLocation with
  | none => { state := init.fst, tunnel := [], notified := false, result := SaveResult.ok }
  | some selected =>
    let upd := updateClientProxy init.fst clientName selected.url selected.location
      (some oldProxy) (some clientState.current_location) now writeOk
    { state := upd.fst
      tunnel :=
        match upd.snd with
        | SaveResult.ioError => []
        | SaveResult.ok =>
          if oldProxy ≠ "" then [TunnelAction.restart clientName selected.url]
          else [TunnelAction.start clientName selected.url]
      notified :=
        match upd.snd with
        | SaveResult.ioError => false
        | SaveResult.ok => isAutomatic && oldProxy != ""
      result := upd.snd }

/-- `assignProxyToClient` (proxy.ts lines 124-141): first-time assignment —
select (the selector lazily initializes the client's state), commit with no
`oldProxy`, start the tunnel; it never notifies. -/
def assignProxyToClient (pool : List Proxy) (writeOk : Bool) (now : Int)
    (st : StateMap) (clientName : String) : RotateOutcome :=
  let init := initializeClientState st clientName
  match selectFreshestProxy pool init.snd none with
  | none => { state := init.fst, tunnel := [], notified := false, result := SaveResult.ok }
  | some selected =>
    let upd := updateClientProxy init.fst clientName selected.url selected.location
      none none now writeOk
    { state := upd.fst
      tunnel :=
        match upd.snd with
        | SaveResult.ioError => []
        | SaveResult.ok => [TunnelAction.start clientName selected.url]
      notified := false
      result := upd.snd }

/-- The per-client body of the scheduler loop in `checkAndRotateProxies`
(proxy.ts lines 45-77): no state or falsy `current_proxy` → first-time
assignment; otherwise rotate automatically when
`now - last_rotation >= intervalMs`.  An unparseable `last_rotation`
makes the JavaScript comparison `NaN >= intervalMs`, which is false. -/
def processClient (pool : List Proxy) (writeOk : Bool) (now intervalMs : Int)
    (st : StateMap) (clientName : String) : RotateOutcome :=
  match getClientState st clientName with
  | none => assignProxyToClient pool writeOk now st clientName
  | some cs =>
    if cs.current_proxy = "" then assignProxyToClient pool writeOk now st clientName
    else
      match cs.last_rotation with
      | some t =>
        if intervalMs ≤ now - t then rotateProxyForClient pool writeOk now st clientName none true
        else { state := st, tunnel := [], notified := false, result := SaveResult.ok }
      | none => { state := st, tunnel := [], notified := false, result := SaveResult.ok }

/-- Observable outcome of one scheduler tick. -/
structure TickOutcome where
  state : StateMap
  tunnel : List TunnelAction
  result : SaveResult
deriving Repr, DecidableEq

/-- `checkAndRotateProxies` (proxy.ts lines 41-78): a sequential
`for (const client of clients)` loop whose body `await`s the per-client
assignment or rotation with **no** try/catch, so an exception thrown for
one client propagates out of the loop and the remaining clients are not
evaluated in that tick. -/
def checkAndRotateProxies (pool : List Proxy) (writeOk : Bool) (now intervalMs : Int)
    (clients : List String) (st : StateMap) : TickOutcome :=
  match clients with
  | [] => { state := st, tunnel := [], result := SaveResult.ok }
  | c :: rest =>
    let r := processClient pool writeOk now intervalMs st c
    match r.result with
    | SaveResult.ioError => { state := r.state, tunnel := r.tunnel, result := SaveResult.ioError }
    | SaveResult.ok =>
      let t := checkAndRotateProxies pool writeOk now intervalMs rest r.state
      { state := t.state, tunnel := r.tunnel ++ t.tunnel, result := t.result }

/-- `MAX_RESTART_ATTEMPTS` (tunnel.ts line 362). -/
def MAX_RESTART_ATTEMPTS : Nat := 3

/-- The fields of the `TunnelProcess` record (tunnel.ts lines 365-372)
relevant to restart accounting. -/
structure TunnelProcessEntry where
  proxyUrl : String
  restartAttempts : Nat
deriving Repr, DecidableEq

/-- Supervision phase of one client's bridging process, as instrumentation
of the tunnel.ts control flow: `running` after `startTun2SocksProcess`
registered a process, `pendingRestart` while the `setTimeout` restart timer
armed by `handleTunnelFailure` is pending, `givenUp` once the
max-attempts branch of `handleTunnelFailure` was taken (it returns without
scheduling anything), `idle` before the first start. -/
inductive SupervisorPhase where
  | idle
  | running
  | pendingRestart
  | givenUp
deriving Repr, DecidableEq

/-- One client's slice of the supervisor: `active` is
`activeTunnels.get(clientName)` and `phase` records which code path is in
control. -/
structure SupervisorState where
  active : Option TunnelProcessEntry
  phase : SupervisorPhase
deriving Repr, DecidableEq

/-- `startTun2SocksProcess` (tunnel.ts lines 514-587), restricted to its
effect on `activeTunnels` for this client: the new entry's counter is
`isRestart ? (activeTunnels.get(clientName)?.restartAttempts || 0) + 1 : 0`
(line 561), read from the **current** map contents, and the entry is then
stored (line 580). -/
def startTun2SocksProcess (s : SupervisorState) (proxyUrl : String)
    (isRestart : Bool) : SupervisorState :=
  let attempts :=
    if isRestart then
      (match s.active with
       | some t => t.restartAttempts
       | none => 0) + 1
    else 0
  { active := some { proxyUrl := proxyUrl, restartAttempts := attempts }
    phase := SupervisorPhase.running }

/-- `handleTunnelFailure` (tunnel.ts lines 592-615), called with the
`tunnelInfo` captured for the process that just failed: it first runs
`activeTunnels.delete(clientName)` (line 593), then either gives up when
`tunnelInfo.restartAttempts >= MAX_RESTART_ATTEMPTS` or arms the restart
timer. -/
def handleTunnelFailure (s : SupervisorState) (tunnelInfo : TunnelProcessEntry) :
    SupervisorState :=
  let s1 : SupervisorState := { s with active := none }
  if MAX_RESTART_ATTEMPTS ≤ tunnelInfo.restartAttempts then
    { s1 with phase := SupervisorPhase.givenUp }
  else
    { s1 with phase := SupervisorPhase.pendingRestart }

/-- A non-clean exit of the running process (exit handler, tunnel.ts lines
569-578, with `code !== 0` and no explicit kill signal): the handler calls
`handleTunnelFailure` with the `tunnelInfo` it captured, which is the entry
currently registered for the client. -/
def nonCleanExit (s : SupervisorState) : SupervisorState :=
  match s.active with
  | some t => handleTunnelFailure s t
  | none => s

/-- The 5-second restart timer armed by `handleTunnelFailure` fires
(tunnel.ts lines 608-612): `startTun2SocksProcess(..., true)`. -/
def restartTimerFires (s : SupervisorState) (proxyUrl : String) : SupervisorState :=
  if s.phase = SupervisorPhase.pendingRestart then startTun2SocksProcess s proxyUrl true
  else s

/-- One crash cycle of a bridging process that always exits non-cleanly:
the process exits, then (if a restart was scheduled) the timer fires. -/
def crashCycle (proxyUrl : String) (s : SupervisorState) : SupervisorState :=
  restartTimerFires (nonCleanExit s) proxyUrl

/-- The supervisor trace for a client whose process always exits
non-cleanly: a fresh (non-restart) start, followed by `n` crash cycles. -/
def crashLoop (proxyUrl : String) : Nat → SupervisorState
  | 0 =>
    startTun2SocksProcess { active := none, phase := SupervisorPhase.idle } proxyUrl false
  | n + 1 => crashCycle proxyUrl (crashLoop proxyUrl n)

/-- One committed call to `updateClientProxy` for a fixed client, as seen
by that client's `ClientState`. -/
structure RotationEvent where
  proxyUrl : String
  location : String
  oldProxy : Option String
  oldLocation : Option String
  now : Int
deriving Repr, DecidableEq

/-- Whether an event takes the history-push branch of `updateClientProxy`
(`oldProxy && oldProxy !== proxyUrl`, state.ts line 156). -/
def eventPushes (e : RotationEvent) : Prop :=
  match e.oldProxy with
  | some s => s ≠ "" ∧ s ≠ e.proxyUrl
  | none => False

instance (e : RotationEvent) : Decidable (eventPushes e) := by
  unfold eventPushes
  cases e.oldProxy <;> infer_instance

/-- The history entry an event pushes. -/
def entryOf (e : RotationEvent) : RotationHistoryEntry :=
  { timestamp := e.now, old_proxy := e.oldProxy.getD "", new_proxy := e.proxyUrl,
    old_location := e.oldLocation.getD "", new_location := e.location }

/-- Apply a sequence of `updateClientProxy` commits to one client's state. -/
def applyRotations (cs : ClientState) : List RotationEvent → ClientState
  | [] => cs
  | e :: rest =>
    applyRotations (applyProxyUpdate cs e.proxyUrl e.location e.oldProxy e.oldLocation e.now) rest

/-- The last `n` elements of a list, i.e. JavaScript `slice(-n)` for a list
of at least `n` elements (and the whole list otherwise). -/
def lastN (n : Nat) (l : List α) : List α :=
  l.drop (l.length - n)

/-! ### Concrete fixtures used by witnesses and counterexamples -/

/-- Relay A, located in "US". -/
def pA : Proxy := { url := "socks5://a:1080", location := "US" }

/-- Relay B, located in "US". -/
def pB : Proxy := { url := "socks5://b:1080", location := "US" }

/-- Relay C, located in "EU". -/
def pC : Proxy := { url := "socks5://c:1080", location := "EU" }

/-- A client currently assigned relay A in "US". -/
def csA : ClientState :=
  { current_proxy := "socks5://a:1080", current_location := "US", last_location := "US",
    last_rotation := some 1000, proxy_usage_dates := [("socks5://a:1080", 1000)],
    rotation_history := [] }

/-- A one-client state document holding `csA` under the name `"c1"`. -/
def stW : StateMap := [("c1", csA)]

/-- The spec's selection scenario state: `last_location = "US"`, relay B
used at time 1000, relays A and C never used. -/
def scenarioCs : ClientState :=
  { current_proxy := "socks5://b:1080", current_location := "US", last_location := "US",
    last_rotation := some 1000, proxy_usage_dates := [("socks5://b:1080", 1000)],
    rotation_history := [] }

/-- A fresh client whose usage map records relay B at exactly the epoch
(millisecond value 0), the same value an absent entry is mapped to. -/
def epochCs : ClientState :=
  { defaultClientState with proxy_usage_dates := [("socks5://b:1080", 0)] }

/-- A fresh client whose usage map records relay B at a positive (post-epoch)
instant. -/
def posCs : ClientState :=
  { defaultClientState with proxy_usage_dates := [("socks5://b:1080", 5)] }

/-- A proxy-changing rotation event (old relay `"a"`, new relay `"b"`). -/
def sampleEvent (i : Nat) : RotationEvent :=
  { proxyUrl := "b", location := "L", oldProxy := some "a", oldLocation := some "M",
    now := (i : Int) }

/-- 101 consecutive proxy-changing rotation events. -/
def evs101 : List RotationEvent := (List.range 101).map sampleEvent

/-! ### Helper lemmas about the state document -/

theorem getClientState_setClientState (st : StateMap) (name : String) (cs cs' : ClientState)
    (h : getClientState st name = some cs) :
    getClientState (setClientState st name cs') name = some cs' := by
  induction st with
  | nil => simp [getClientState] at h
  | cons hd tl ih =>
    by_cases hk : (hd.fst == name) = true
    · simp [getClientState, setClientState, List.find?, hk]
    · simp only [getClientState, setClientState, List.map_cons, List.find?, hk] at h ⊢
      rw [if_neg (by simp [hk])]
      simp only [Bool.false_eq_true, hk] at h ⊢
      exact ih h

theorem initializeClientState_getClientState (st : StateMap) (name : String) :
    getClientState (initializeClientState st name).fst name
      = some (initializeClientState st name).snd := by
  unfold initializeClientState
  cases h : getClientState st name with
  | some cs => simpa using h
  | none =>
    have hfind : st.find? (fun p => p.fst == name) = none := by
      unfold getClientState at h
      exact Option.map_eq_none'.mp h
    simp only [getClientState, List.find?_append, hfind, Option.none_or]
    simp [List.find?]

theorem initializeClientState_of_some (st : StateMap) (name : String) (cs : ClientState)
    (h : getClientState st name = some cs) :
    initializeClientState st name = (st, cs) := by
  unfold initializeClientState
  rw [h]

theorem updateClientProxy_getClientState (st : StateMap) (name proxyUrl location : String)
    (oldProxy oldLocation : Option String) (now : Int) (writeOk : Bool) :
    getClientState (updateClientProxy st name proxyUrl location oldProxy oldLocation now writeOk).fst
        name
      = some (applyProxyUpdate (initializeClientState st name).snd proxyUrl location
          oldProxy oldLocation now) := by
  unfold updateClientProxy
  exact getClientState_setClientState _ name _ _ (initializeClientState_getClientState st name)

/-! ### Helper lemmas about the selection loop -/

theorem freshestGo_isSome (dates : List (String × Int)) :
    ∀ (ps : List Proxy) (acc : Option (Proxy × Int)),
      acc.isSome ∨ ps ≠ [] → (freshestGo dates acc ps).isSome := by
  intro ps
  induction ps with
  | nil =>
    intro acc h
    rcases h with h | h
    · simpa [freshestGo] using h
    · simp at h
  | cons p rest ih =>
    intro acc _
    cases acc with
    | none => exact ih (some (p, usageDateOf dates p.url)) (Or.inl rfl)
    | some qd =>
      obtain ⟨q, dq⟩ := qd
      have hstep : freshestGo dates (some (q, dq)) (p :: rest)
          = freshestGo dates (if usageDateOf dates p.url < dq
              then some (p, usageDateOf dates p.url) else some (q, dq)) rest := rfl
      rw [hstep]
      by_cases hlt : usageDateOf dates p.url < dq
      · rw [if_pos hlt]; exact ih _ (Or.inl rfl)
      · rw [if_neg hlt]; exact ih _ (Or.inl rfl)

theorem freshestGo_mem (dates : List (String × Int)) :
    ∀ (ps : List Proxy) (acc : Option (Proxy × Int)) (p : Proxy) (d : Int),
      freshestGo dates acc ps = some (p, d) → acc = some (p, d) ∨ p ∈ ps := by
  intro ps
  induction ps with
  | nil =>
    intro acc p d h
    exact Or.inl h
  | cons q rest ih =>
    intro acc p d h
    cases acc with
    | none =>
      have hstep : freshestGo dates none (q :: rest)
          = freshestGo dates (some (q, usageDateOf dates q.url)) rest := rfl
      rw [hstep] at h
      rcases ih _ p d h with h' | h'
      · right
        have : q = p := by injection h' with h''; exact congrArg (fun x => x.1) h''
        rw [← this]
        exact List.mem_cons_self q rest
      · exact Or.inr (List.mem_cons_of_mem q h')
    | some rd =>
      obtain ⟨r, dr⟩ := rd
      have hstep : freshestGo dates (some (r, dr)) (q :: rest)
          = freshestGo dates (if usageDateOf dates q.url < dr
              then some (q, usageDateOf dates q.url) else some (r, dr)) rest := rfl
      rw [hstep] at h
      by_cases hlt : usageDateOf dates q.url < dr
      · rw [if_pos hlt] at h
        rcases ih _ p d h with h' | h'
        · right
          have : q = p := by injection h' with h''; exact congrArg (fun x => x.1) h''
          rw [← this]
          exact List.mem_cons_self q rest
        · exact Or.inr (List.mem_cons_of_mem q h')
      · rw [if_neg hlt] at h
        rcases ih _ p d h with h' | h'
        · exact Or.inl h'
        · exact Or.inr (List.mem_cons_of_mem q h')

theorem freshestGo_min (dates : List (String × Int)) :
    ∀ (ps : List Proxy) (acc : Option (Proxy × Int)) (p : Proxy) (d : Int),
      freshestGo dates acc ps = some (p, d) →
        (∀ q dq, acc = some (q, dq) → d ≤ dq) ∧
        (∀ r ∈ ps, d ≤ usageDateOf dates r.url) := by
  intro ps
  induction ps with
  | nil =>
    intro acc p d h
    simp only [freshestGo] at h
    constructor
    · intro q dq hq
      rw [h] at hq
      injection hq with hq'
      have : d = dq := congrArg (fun x => x.2) hq'
      omega
    · intro r hr
      simp at hr
  | cons q rest ih =>
    intro acc p d h
    cases acc with
    | none =>
      have hstep : freshestGo dates none (q :: rest)
          = freshestGo dates (some (q, usageDateOf dates q.url)) rest := rfl
      rw [hstep] at h
      obtain ⟨h1, h2⟩ := ih _ p d h
      refine ⟨fun q' dq' hq' => by simp at hq', fun r hr => ?_⟩
      rcases List.mem_cons.mp hr with hr' | hr'
      · rw [hr']
        exact h1 _ _ rfl
      · exact h2 r hr'
    | some rd =>
      obtain ⟨r0, dr⟩ := rd
      have hstep : freshestGo dates (some (r0, dr)) (q :: rest)
          = freshestGo dates (if usageDateOf dates q.url < dr
              then some (q, usageDateOf dates q.url) else some (r0, dr)) rest := rfl
      rw [hstep] at h
      by_cases hlt : usageDateOf dates q.url < dr
      · rw [if_pos hlt] at h
        obtain ⟨h1, h2⟩ := ih _ p d h
        have hdq : d ≤ usageDateOf dates q.url := h1 _ _ rfl
        refine ⟨fun q' dq' hq' => ?_, fun r hr => ?_⟩
        · injection hq' with hq''
          have : dr = dq' := congrArg (fun x => x.2) hq''
          omega
        · rcases List.mem_cons.mp hr with hr' | hr'
          · rw [hr']; exact hdq
          · exact h2 r hr'
      · rw [if_neg hlt] at h
        obtain ⟨h1, h2⟩ := ih _ p d h
        have hdr : d ≤ dr := h1 _ _ rfl
        refine ⟨fun q' dq' hq' => ?_, fun r hr => ?_⟩
        · injection hq' with hq''
          have : dr = dq' := congrArg (fun x => x.2) hq''
          omega
        · rcases List.mem_cons.mp hr with hr' | hr'
          · rw [hr']
            have : dr ≤ usageDateOf dates q.url := not_lt.mp hlt
            omega
          · exact h2 r hr'

theorem freshestGo_usage (dates : List (String × Int)) :
    ∀ (ps : List Proxy) (acc : Option (Proxy × Int)),
      (∀ q dq, acc = some (q, dq) → dq = usageDateOf dates q.url) →
      ∀ p d, freshestGo dates acc ps = some (p, d) → d = usageDateOf dates p.url := by
  intro ps
  induction ps with
  | nil =>
    intro acc hacc p d h
    simp only [freshestGo] at h
    exact hacc p d h
  | cons q rest ih =>
    intro acc hacc p d h
    cases acc with
    | none =>
      have hstep : freshestGo dates none (q :: rest)
          = freshestGo dates (some (q, usageDateOf dates q.url)) rest := rfl
      rw [hstep] at h
      refine ih _ (fun q' dq' hq' => ?_) p d h
      injection hq' with hq''
      have h1 : q = q' := congrArg (fun x => x.1) hq''
      have h2 : usageDateOf dates q.url = dq' := congrArg (fun x => x.2) hq''
      rw [← h2, ← h1]
    | some rd =>
      obtain ⟨r0, dr⟩ := rd
      have hstep : freshestGo dates (some (r0, dr)) (q :: rest)
          = freshestGo dates (if usageDateOf dates q.url < dr
              then some (q, usageDateOf dates q.url) else some (r0, dr)) rest := rfl
      rw [hstep] at h
      by_cases hlt : usageDateOf dates q.url < dr
      · rw [if_pos hlt] at h
        refine ih _ (fun q' dq' hq' => ?_) p d h
        injection hq' with hq''
        have h1 : q = q' := congrArg (fun x => x.1) hq''
        have h2 : usageDateOf dates q.url = dq' := congrArg (fun x => x.2) hq''
        rw [← h2, ← h1]
      · rw [if_neg hlt] at h
        exact ih _ (fun q' dq' hq' => hacc q' dq' hq') p d h

theorem selectFreshestProxy_spec (pool : List Proxy) (cs : ClientState) (pref : Option String)
    (h : availableProxies pool cs pref ≠ []) :
    ∃ q, selectFreshestProxy pool cs pref = some q ∧ q ∈ availableProxies pool cs pref ∧
      ∀ r ∈ availableProxies pool cs pref,
        usageDateOf cs.proxy_usage_dates q.url ≤ usageDateOf cs.proxy_usage_dates r.url := by
  have hlen : ¬ (availableProxies pool cs pref).length = 0 := by
    simpa [List.length_eq_zero] using h
  have hsome := freshestGo_isSome cs.proxy_usage_dates (availableProxies pool cs pref) none
    (Or.inr h)
  obtain ⟨⟨p, d⟩, hpd⟩ := Option.isSome_iff_exists.mp hsome
  have hsel : selectFreshestProxy pool cs pref = some p := by
    unfold selectFreshestProxy freshestFold
    rw [if_neg hlen, hpd]
    rfl
  refine ⟨p, hsel, ?_, ?_⟩
  · rcases freshestGo_mem _ _ none p d hpd with h' | h'
    · simp at h'
    · exact h'
  · intro r hr
    have hmin := (freshestGo_min _ _ none p d hpd).2 r hr
    have hval := freshestGo_usage _ _ none (by simp) p d hpd
    rw [← hval]
    exact hmin

theorem selectFreshestProxy_of_empty (pool : List Proxy) (cs : ClientState)
    (pref : Option String) (h : availableProxies pool cs pref = []) :
    selectFreshestProxy pool cs pref = none := by
  unfold selectFreshestProxy
  rw [h]
  rfl

/-! ### Helper lemmas about `applyProxyUpdate` -/

theorem applyProxyUpdate_last_location (cs : ClientState) (proxyUrl location : String)
    (oldProxy oldLocation : Option String) (now : Int) :
    (applyProxyUpdate cs proxyUrl location oldProxy oldLocation now).last_location = location := by
  unfold applyProxyUpdate
  cases oldProxy with
  | none =>
    by_cases h : location = cs.last_location
    · simp [h]
    · simp [h]
  | some old =>
    by_cases h : location = cs.last_location
    · by_cases h2 : old ≠ "" ∧ old ≠ proxyUrl
      · simp [h, h2]
      · simp [h, h2]
    · by_cases h2 : old ≠ "" ∧ old ≠ proxyUrl
      · simp [h, h2]
      · simp [h, h2]

theorem applyProxyUpdate_history_some (cs : ClientState) (proxyUrl location old : String)
    (oldLocation : Option String) (now : Int) (h2 : old ≠ "" ∧ old ≠ proxyUrl) :
    (applyProxyUpdate cs proxyUrl location (some old) oldLocation now).rotation_history
      = pushHistory cs.rotation_history
          { timestamp := now, old_proxy := old, new_proxy := proxyUrl,
            old_location := oldLocation.getD "", new_location := location } := by
  unfold applyProxyUpdate
  by_cases h : location = cs.last_location
  · simp [h, h2]
  · simp [h, h2]

theorem applyProxyUpdate_history_some_noop (cs : ClientState) (proxyUrl location old : String)
    (oldLocation : Option String) (now : Int) (h2 : ¬ (old ≠ "" ∧ old ≠ proxyUrl)) :
    (applyProxyUpdate cs proxyUrl location (some old) oldLocation now).rotation_history
      = cs.rotation_history := by
  unfold applyProxyUpdate
  by_cases h : location = cs.last_location
  · simp [h, h2]
  · simp [h, h2]

theorem applyProxyUpdate_history_no_push (cs : ClientState) (proxyUrl location : String)
    (oldLocation : Option String) (now : Int) :
    (applyProxyUpdate cs proxyUrl location none oldLocation now).rotation_history
      = cs.rotation_history := by
  unfold applyProxyUpdate
  by_cases h : location = cs.last_location
  · simp [h]
  · simp [h]

theorem applyProxyUpdate_history_of_push (cs : ClientState) (e : RotationEvent)
    (hp : eventPushes e) :
    (applyProxyUpdate cs e.proxyUrl e.location e.oldProxy e.oldLocation e.now).rotation_history
      = pushHistory cs.rotation_history (entryOf e) := by
  unfold eventPushes at hp
  cases holdp : e.oldProxy with
  | none => rw [holdp] at hp; exact absurd hp (by simp)
  | some old =>
    rw [holdp] at hp
    replace hp : old ≠ "" ∧ old ≠ e.proxyUrl := hp
    rw [applyProxyUpdate_history_some cs e.proxyUrl e.location old e.oldLocation e.now hp]
    simp [entryOf, holdp]

theorem pushHistory_length (hist : List RotationHistoryEntry) (entry : RotationHistoryEntry)
    (h : hist.length ≤ 100) : (pushHistory hist entry).length ≤ 100 := by
  unfold pushHistory
  by_cases hl : 100 < (hist ++ [entry]).length
  · rw [if_pos hl]
    rw [List.length_drop]
    omega
  · rw [if_neg hl]
    omega

theorem pushHistory_eq_lastN (hist : List RotationHistoryEntry) (entry : RotationHistoryEntry)
    (h : hist.length ≤ 100) : pushHistory hist entry = lastN 100 (hist ++ [entry]) := by
  unfold pushHistory lastN
  by_cases hl : 100 < (hist ++ [entry]).length
  · rw [if_pos hl]
  · rw [if_neg hl, Nat.sub_eq_zero_of_le (not_lt.mp hl), List.drop_zero]

theorem applyProxyUpdate_history_length (cs : ClientState) (proxyUrl location : String)
    (oldProxy oldLocation : Option String) (now : Int) (h : cs.rotation_history.length ≤ 100) :
    (applyProxyUpdate cs proxyUrl location oldProxy oldLocation now).rotation_history.length
      ≤ 100 := by
  cases oldProxy with
  | none =>
    rw [applyProxyUpdate_history_no_push]
    exact h
  | some old =>
    by_cases h2 : old ≠ "" ∧ old ≠ proxyUrl
    · rw [applyProxyUpdate_history_some cs proxyUrl location old oldLocation now h2]
      exact pushHistory_length _ _ h
    · rw [applyProxyUpdate_history_some_noop cs proxyUrl location old oldLocation now h2]
      exact h

/-! ### Helper lemmas about `lastN` -/

theorem lastN_reverse (n : Nat) (l : List α) : (lastN n l).reverse = l.reverse.take n := by
  unfold lastN
  rw [List.reverse_drop]
  rcases le_or_lt n l.length with h | h
  · rw [Nat.sub_sub_self h]
  · have h1 : l.length - (l.length - n) = l.length := by omega
    rw [h1]
    rw [List.take_of_length_le (by simp), List.take_of_length_le (by simp; omega)]

theorem take_append_take (n : Nat) (c d : List α) :
    (c ++ d.take n).take n = (c ++ d).take n := by
  rw [List.take_append_eq_append_take, List.take_append_eq_append_take, List.take_take,
    Nat.min_eq_left (Nat.sub_le n c.length)]

theorem lastN_append_lastN (n : Nat) (a b : List α) :
    lastN n (lastN n a ++ b) = lastN n (a ++ b) := by
  apply List.reverse_injective
  rw [lastN_reverse, lastN_reverse, List.reverse_append, List.reverse_append, lastN_reverse,
    take_append_take]

theorem lastN_of_length_le (n : Nat) (l : List α) (h : l.length ≤ n) : lastN n l = l := by
  unfold lastN
  rw [Nat.sub_eq_zero_of_le h, List.drop_zero]

/-! ### Helper lemmas about rotation sequences -/

theorem applyRotations_history_length (evs : List RotationEvent) :
    ∀ cs : ClientState, cs.rotation_history.length ≤ 100 →
      (applyRotations cs evs).rotation_history.length ≤ 100 := by
  induction evs with
  | nil => intro cs h; exact h
  | cons e rest ih =>
    intro cs h
    exact ih _ (applyProxyUpdate_history_length cs e.proxyUrl e.location e.oldProxy
      e.oldLocation e.now h)

theorem applyRotations_history (evs : List RotationEvent) :
    ∀ cs : ClientState, cs.rotation_history.length ≤ 100 → (∀ e ∈ evs, eventPushes e) →
      (applyRotations cs evs).rotation_history
        = lastN 100 (cs.rotation_history ++ evs.map entryOf) := by
  induction evs with
  | nil =>
    intro cs hlen _
    simp only [applyRotations, List.map_nil, List.append_nil]
    exact (lastN_of_length_le 100 _ hlen).symm
  | cons e rest ih =>
    intro cs hlen hp
    have hpe := hp e (List.mem_cons_self e rest)
    have hrest : ∀ e' ∈ rest, eventPushes e' := fun e' he' => hp e' (List.mem_cons_of_mem e he')
    show (applyRotations (applyProxyUpdate cs e.proxyUrl e.location e.oldProxy e.oldLocation
      e.now) rest).rotation_history = _
    rw [ih _ (applyProxyUpdate_history_length cs e.proxyUrl e.location e.oldProxy
        e.oldLocation e.now hlen) hrest]
    rw [applyProxyUpdate_history_of_push cs e hpe]
    rw [pushHistory_eq_lastN _ _ hlen]
    rw [lastN_append_lastN]
    congr 1
    rw [List.append_assoc, List.singleton_append, List.map_cons]

/-! ### Helper lemma about the crash-restart loop -/

theorem crashLoop_succ_eq (url : String) (n : Nat) :
    crashLoop url (n + 1) =
      { active := some { proxyUrl := url, restartAttempts := 1 },
        phase := SupervisorPhase.running } := by
  induction n with
  | zero => rfl
  | succ m ih =>
    show crashCycle url (crashLoop url (m + 1)) = _
    rw [ih]
    rfl

/-! ### The claims -/

/-- C1, counterexample.  The claim says that a rotation committed through
`updateClientProxy` that moves a client from `L_old = "US"` to
`L_new = "EU"` leaves `last_location = "US"` (the vacated location).  On
the concrete one-client document `stW` (client `"c1"` currently on relay A
in `"US"`), committing a rotation to relay C in `"EU"` leaves
`last_location = "EU"`, not `"US"`: line 149 of state.ts assigns
`clientState.current_location`, which line 144 already overwrote with the
new location. -/
theorem C1_counterexample :
    csA.current_location = "US" ∧ ("EU" : String) ≠ "US" ∧
    (getClientState (updateClientProxy stW "c1" "socks5://c:1080" "EU"
        (some "socks5://a:1080") (some "US") 2000 true).fst "c1").map ClientState.last_location
      = some "EU" ∧
    (getClientState (updateClientProxy stW "c1" "socks5://c:1080" "EU"
        (some "socks5://a:1080") (some "US") 2000 true).fst "c1").map ClientState.last_location
      ≠ some "US" := by
  decide

/-- C1, amended.  After every commit through `updateClientProxy` the
client's `last_location` equals the location just assigned (`L_new`, the
new `current_location`), not the vacated one: when the new location differs
from the stored `last_location` the code copies the already-updated
`current_location` into `last_location`, and otherwise `last_location`
already equals the new location.  The next selection's anti-repeat filter
therefore excludes the location the client currently occupies. -/
theorem C1_last_location_amended (st : StateMap) (name proxyUrl location : String)
    (oldProxy oldLocation : Option String) (now : Int) (writeOk : Bool) :
    (getClientState (updateClientProxy st name proxyUrl location oldProxy oldLocation now
        writeOk).fst name).map ClientState.last_location = some location := by
  rw [updateClientProxy_getClientState]
  simp [applyProxyUpdate_last_location]

/-- C2.  The claim says a bridging process that always exits non-cleanly
triggers exactly `MAX_RESTART_ATTEMPTS = 3` restart attempts, after which
the client is terminally Failed with no further restarts.  In the code,
`handleTunnelFailure` deletes the client's `activeTunnels` entry before the
restart timer runs, so the restarted process reads
`activeTunnels.get(clientName)?.restartAttempts` from an empty map and its
counter is always `0 + 1 = 1`: the give-up branch is never reached and a
new start follows every failure, forever.  `crashLoop url n` is the
supervisor state after a fresh start and `n` crash-restart cycles. -/
theorem C2_restart_unbounded (url : String) (n : Nat) :
    (crashLoop url n).phase = SupervisorPhase.running ∧
    (crashLoop url n).phase ≠ SupervisorPhase.givenUp ∧
    crashLoop url (n + 1) =
      { active := some { proxyUrl := url, restartAttempts := 1 },
        phase := SupervisorPhase.running } := by
  refine ⟨?_, ?_, crashLoop_succ_eq url n⟩
  · cases n with
    | zero => rfl
    | succ m => rw [crashLoop_succ_eq]
  · cases n with
    | zero => exact fun h => nomatch h
    | succ m =>
      rw [crashLoop_succ_eq]
      exact fun h => nomatch h

/-- C3, counterexample.  The claim says a failed state-file write is
non-fatal: `updateClientProxy` completes normally and the rest of the
rotation still runs.  On the concrete rotation of client `"c1"` with a
failing write, `rotateProxyForClient` ends with the thrown `StateIOError`
and performs no tunnel restart: `saveState` re-throws after logging
(state.ts line 102) and `rotateProxyForClient` awaits `updateClientProxy`
before any tunnel call. -/
theorem C3_counterexample :
    (rotateProxyForClient [pB, pC] false 2000 stW "c1" none true).result
      = SaveResult.ioError ∧
    (rotateProxyForClient [pB, pC] false 2000 stW "c1" none true).tunnel = [] := by
  decide

/-- C3, amended.  When the state-file write fails during a rotation whose
selector returned a proxy, the error is logged and the in-memory document
keeps the applied mutation (it remains authoritative), but `saveState`
re-throws, so `updateClientProxy` does not complete normally: the thrown
error propagates out of `rotateProxyForClient` and the tunnel swap and
notification of that rotation are skipped. -/
theorem C3_save_failure_amended (pool : List Proxy) (now : Int) (st : StateMap)
    (name : String) (pref : Option String) (isAutomatic : Bool) (cs : ClientState) (sel : Proxy)
    (hcs : getClientState st name = some cs)
    (hsel : selectFreshestProxy pool cs pref = some sel) :
    (rotateProxyForClient pool false now st name pref isAutomatic).result
      = SaveResult.ioError ∧
    (rotateProxyForClient pool false now st name pref isAutomatic).tunnel = [] ∧
    (rotateProxyForClient pool false now st name pref isAutomatic).notified = false ∧
    getClientState (rotateProxyForClient pool false now st name pref isAutomatic).state name
      = some (applyProxyUpdate cs sel.url sel.location (some cs.current_proxy)
          (some cs.current_location) now) := by
  have hinit := initializeClientState_of_some st name cs hcs
  have hupd := updateClientProxy_getClientState st name sel.url sel.location
    (some cs.current_proxy) (some cs.current_location) now false
  rw [hinit] at hupd
  simp only [rotateProxyForClient, hinit, hsel, updateClientProxy, saveState,
    Bool.false_eq_true, if_false] at *
  exact ⟨trivial, trivial, trivial, hupd⟩

/-- C3, amended, witness: client `"c1"` rotating under a failing write —
the selector picks relay C, the in-memory document carries the mutation,
and the call ends with the thrown error, no tunnel swap, no
notification. -/
theorem C3_save_failure_amended_witness :
    getClientState stW "c1" = some csA ∧
    selectFreshestProxy [pB, pC] csA none = some pC ∧
    ((rotateProxyForClient [pB, pC] false 2000 stW "c1" none true).result
        = SaveResult.ioError ∧
      (rotateProxyForClient [pB, pC] false 2000 stW "c1" none true).tunnel = [] ∧
      (rotateProxyForClient [pB, pC] false 2000 stW "c1" none true).notified = false ∧
      getClientState (rotateProxyForClient [pB, pC] false 2000 stW "c1" none true).state "c1"
        = some (applyProxyUpdate csA pC.url pC.location (some csA.current_proxy)
            (some csA.current_location) 2000)) :=
  ⟨by decide, by decide,
    C3_save_failure_amended [pB, pC] 2000 stW "c1" none true csA pC (by decide) (by decide)⟩

/-- C4.  A call to `rotateProxyForClient` in which the selector returns
`none` changes nothing: for a client that already has a `ClientState`, the
state document is returned unchanged (every field of the client's state
included), no tunnel process is started or restarted, and nothing is
notified — the code logs a warning and returns before any mutation. -/
theorem C4_rotation_noop (pool : List Proxy) (writeOk : Bool) (now : Int) (st : StateMap)
    (clientName : String) (pref : Option String) (isAutomatic : Bool) (cs : ClientState)
    (hcs : getClientState st clientName = some cs)
    (hsel : selectFreshestProxy pool cs pref = none) :
    rotateProxyForClient pool writeOk now st clientName pref isAutomatic =
      { state := st, tunnel := [], notified := false, result := SaveResult.ok } := by
  have hinit := initializeClientState_of_some st clientName cs hcs
  simp only [rotateProxyForClient, hinit, hsel]

/-- C4, witness: a client with state `csA` and a pool whose only relay is
in `"US"`, rotated with preferred location `"EU"` — the selector returns
`none` and the call changes nothing. -/
theorem C4_rotation_noop_witness :
    getClientState stW "c1" = some csA ∧
    selectFreshestProxy [pA] csA (some "EU") = none ∧
    rotateProxyForClient [pA] true 2000 stW "c1" (some "EU") false =
      { state := stW, tunnel := [], notified := false, result := SaveResult.ok } :=
  ⟨by decide, by decide,
    C4_rotation_noop [pA] true 2000 stW "c1" (some "EU") false csA (by decide) (by decide)⟩

/-- C5, counterexample.  The claim says a failure while assigning or
rotating one client never aborts the evaluation of the other clients in the
same tick.  Concretely, with two configured clients `"c1", "c2"` (both due
for a first-time assignment), one relay, and a failing state write, the
tick throws while processing `"c1"` (whose in-memory state was already
mutated) and `"c2"` is never evaluated: it is absent from the resulting
document even though an evaluation would have initialized and assigned
it. -/
theorem C5_counterexample :
    (checkAndRotateProxies [pA] false 5000 1000 ["c1", "c2"] []).result
      = SaveResult.ioError ∧
    getClientState (checkAndRotateProxies [pA] false 5000 1000 ["c1", "c2"] []).state "c2"
      = none ∧
    getClientState (checkAndRotateProxies [pA] false 5000 1000 ["c1", "c2"] []).state "c1"
      ≠ none ∧
    getClientState (assignProxyToClient [pA] false 5000 [] "c2").state "c2" ≠ none := by
  decide

/-- C5, amended.  The scheduler's `for` loop awaits each client's
assignment or rotation with no per-client error handling, so a thrown
failure on one client aborts the tick: the tick's outcome is exactly the
failing client's outcome, independent of every client listed after it —
the remaining clients are not checked in that tick (they are reconsidered
only on a later tick). -/
theorem C5_tick_abort_amended (pool : List Proxy) (writeOk : Bool) (now intervalMs : Int)
    (c : String) (rest : List String) (st : StateMap)
    (h : (processClient pool writeOk now intervalMs st c).result = SaveResult.ioError) :
    checkAndRotateProxies pool writeOk now intervalMs (c :: rest) st =
      { state := (processClient pool writeOk now intervalMs st c).state,
        tunnel := (processClient pool writeOk now intervalMs st c).tunnel,
        result := SaveResult.ioError } := by
  simp only [checkAndRotateProxies, h]

/-- C5, amended, witness: with a failing write, processing `"c1"` errors
and the two-client tick's outcome is exactly `"c1"`'s outcome. -/
theorem C5_tick_abort_amended_witness :
    (processClient [pA] false 5000 1000 [] "c1").result = SaveResult.ioError ∧
    checkAndRotateProxies [pA] false 5000 1000 ["c1", "c2"] [] =
      { state := (processClient [pA] false 5000 1000 [] "c1").state,
        tunnel := (processClient [pA] false 5000 1000 [] "c1").tunnel,
        result := SaveResult.ioError } :=
  ⟨by decide, C5_tick_abort_amended [pA] false 5000 1000 "c1" ["c2"] [] (by decide)⟩

/-- C6.  Anti-repeat: with no preferred location given, and every pool
location a non-empty tag (as the configuration schema guarantees), if some
pool member's location differs from `last_location` then the selected
proxy's location is never `last_location`; and if every member's location
equals `last_location` (non-empty pool), selection still returns a proxy at
that location rather than stranding the client. -/
theorem C6_anti_repeat (pool : List Proxy) (cs : ClientState)
    (hloc : ∀ p ∈ pool, p.location ≠ "") :
    ((∃ p ∈ pool, p.location ≠ cs.last_location) →
      ∃ q, selectFreshestProxy pool cs none = some q ∧ q ∈ pool ∧
        q.location ≠ cs.last_location) ∧
    ((∀ p ∈ pool, p.location = cs.last_location) → pool ≠ [] →
      ∃ q, selectFreshestProxy pool cs none = some q ∧ q ∈ pool ∧
        q.location = cs.last_location) := by
  have havail : availableProxies pool cs none = antiRepeatFilter pool cs.last_location := rfl
  constructor
  · rintro ⟨p, hp, hpl⟩
    by_cases hL : cs.last_location = ""
    · have hav : availableProxies pool cs none = pool := by
        rw [havail]
        unfold antiRepeatFilter
        rw [if_neg (by simp [hL])]
      have hne : availableProxies pool cs none ≠ [] := by
        rw [hav]
        exact List.ne_nil_of_mem hp
      obtain ⟨q, hq, hqm, _⟩ := selectFreshestProxy_spec pool cs none hne
      rw [hav] at hqm
      refine ⟨q, hq, hqm, ?_⟩
      rw [hL]
      exact hloc q hqm
    · have hdiff : p ∈ pool.filter (fun r => r.location != cs.last_location) := by
        rw [List.mem_filter]
        exact ⟨hp, by simpa using hpl⟩
      have hdlen : 0 < (pool.filter (fun r => r.location != cs.last_location)).length :=
        List.length_pos.mpr (List.ne_nil_of_mem hdiff)
      have hav : availableProxies pool cs none
          = pool.filter (fun r => r.location != cs.last_location) := by
        rw [havail]
        unfold antiRepeatFilter
        rw [if_pos hL, if_pos hdlen]
      have hne : availableProxies pool cs none ≠ [] := by
        rw [hav]
        exact List.ne_nil_of_mem hdiff
      obtain ⟨q, hq, hqm, _⟩ := selectFreshestProxy_spec pool cs none hne
      rw [hav, List.mem_filter] at hqm
      exact ⟨q, hq, hqm.1, by simpa using hqm.2⟩
  · intro hall hne
    by_cases hL : cs.last_location = ""
    · obtain ⟨p, hp⟩ := List.exists_mem_of_ne_nil pool hne
      exact absurd ((hall p hp).trans hL) (hloc p hp)
    · have hdiff : pool.filter (fun r => r.location != cs.last_location) = [] := by
        rw [List.filter_eq_nil_iff]
        intro a ha
        simp [hall a ha]
      have hav : availableProxies pool cs none = pool := by
        rw [havail]
        unfold antiRepeatFilter
        rw [if_pos hL, hdiff]
        simp
      have hne' : availableProxies pool cs none ≠ [] := by
        rw [hav]
        exact hne
      obtain ⟨q, hq, hqm, _⟩ := selectFreshestProxy_spec pool cs none hne'
      rw [hav] at hqm
      exact ⟨q, hq, hqm, hall q hqm⟩

/-- C6, witness: the spec's scenario.  Pool `[A(US, unused), B(US, used),
C(EU, unused)]` with `last_location = "US"` and no preferred location —
selection returns exactly C, whose location is not `"US"`. -/
theorem C6_anti_repeat_witness :
    selectFreshestProxy [pA, pB, pC] scenarioCs none = some pC ∧
    (∃ q, selectFreshestProxy [pA, pB, pC] scenarioCs none = some q ∧ q ∈ [pA, pB, pC] ∧
      q.location ≠ scenarioCs.last_location) :=
  ⟨by decide, (C6_anti_repeat [pA, pB, pC] scenarioCs (by decide)).1 (by decide)⟩

/-- C7, counterexample.  The claim says a never-used candidate always beats
a used one.  With relay B recorded at exactly the epoch
(`"1970-01-01T00:00:00.000Z"`, parsed value 0 — the same value an absent
entry is treated as) and listed before the never-used relay A, selection
returns the used relay B: the loop keeps the earlier candidate on a tie. -/
theorem C7_counterexample :
    lookupDate epochCs.proxy_usage_dates pB.url = some 0 ∧
    lookupDate epochCs.proxy_usage_dates pA.url = none ∧
    pA ∈ availableProxies [pB, pA] epochCs none ∧
    pB ∈ availableProxies [pB, pA] epochCs none ∧
    selectFreshestProxy [pB, pA] epochCs none = some pB := by
  decide

/-- C7, amended.  Whenever every usage date recorded for a post-filter
candidate is strictly later than the epoch — which holds for every
timestamp the program itself writes — a never-used candidate always beats a
used one: if a never-used proxy is among the candidates, the selected proxy
is never-used, and in particular selection never returns any proxy with a
recorded usage date.  (A hand-written entry at or before the epoch can tie
with or beat the never-used candidates, as the counterexample shows.) -/
theorem C7_never_used_amended (pool : List Proxy) (cs : ClientState) (pref : Option String)
    (A : Proxy) (hA : A ∈ availableProxies pool cs pref)
    (hAnone : lookupDate cs.proxy_usage_dates A.url = none)
    (hpos : ∀ q ∈ availableProxies pool cs pref, ∀ d : Int,
      lookupDate cs.proxy_usage_dates q.url = some d → 0 < d) :
    ∃ q, selectFreshestProxy pool cs pref = some q ∧
      lookupDate cs.proxy_usage_dates q.url = none ∧
      ∀ B : Proxy, lookupDate cs.proxy_usage_dates B.url ≠ none →
        selectFreshestProxy pool cs pref ≠ some B := by
  have hne : availableProxies pool cs pref ≠ [] := List.ne_nil_of_mem hA
  obtain ⟨q, hq, hqm, hmin⟩ := selectFreshestProxy_spec pool cs pref hne
  have hAu : usageDateOf cs.proxy_usage_dates A.url = 0 := by
    unfold usageDateOf
    rw [hAnone]
  have hq0 : usageDateOf cs.proxy_usage_dates q.url ≤ 0 := by
    have := hmin A hA
    rw [hAu] at this
    exact this
  have hqnone : lookupDate cs.proxy_usage_dates q.url = none := by
    rcases hcase : lookupDate cs.proxy_usage_dates q.url with _ | d
    · rfl
    · exfalso
      have hd : 0 < d := hpos q hqm d hcase
      have he : usageDateOf cs.proxy_usage_dates q.url = d := by
        unfold usageDateOf
        rw [hcase]
      rw [he] at hq0
      omega
  refine ⟨q, hq, hqnone, ?_⟩
  intro B hB hContra
  rw [hq] at hContra
  injection hContra with hqB
  exact hB (hqB ▸ hqnone)

/-- C7, amended, witness: relay B used at the positive instant 5, relay A
never used, both candidates — selection returns a never-used proxy and not
B. -/
theorem C7_never_used_amended_witness :
    pA ∈ availableProxies [pB, pA] posCs none ∧
    lookupDate posCs.proxy_usage_dates pA.url = none ∧
    (∃ q, selectFreshestProxy [pB, pA] posCs none = some q ∧
      lookupDate posCs.proxy_usage_dates q.url = none ∧
      ∀ B : Proxy, lookupDate posCs.proxy_usage_dates B.url ≠ none →
        selectFreshestProxy [pB, pA] posCs none ≠ some B) :=
  ⟨by decide, by decide,
    C7_never_used_amended [pB, pA] posCs none pA (by decide) (by decide) (by decide)⟩

/-- C8, counterexample.  The claim says selection with
`preferredLocation = loc` returns `none` whenever no pool member has
location `loc`.  For `loc = ""` this fails: the empty string is falsy in
JavaScript, so `selectFreshestProxy` treats it as "no preference given",
falls through to the anti-repeat branch, and returns relay A even though no
member has location `""`. -/
theorem C8_counterexample :
    (∀ p ∈ [pA], p.location ≠ ("" : String)) ∧
    selectFreshestProxy [pA] defaultClientState (some "") = some pA := by
  decide

/-- C8, amended.  For every *non-empty* location `loc` (the empty string is
treated as "no preference" by JavaScript truthiness), selection with
`preferredLocation = loc` returns a pool member with location `loc`
whenever one exists, and `none` otherwise — there is no fallback to other
locations. -/
theorem C8_preferred_location_amended (pool : List Proxy) (cs : ClientState) (loc : String)
    (hloc : loc ≠ "") :
    ((∃ p ∈ pool, p.location = loc) →
      ∃ q, selectFreshestProxy pool cs (some loc) = some q ∧ q ∈ pool ∧ q.location = loc) ∧
    ((∀ p ∈ pool, p.location ≠ loc) → selectFreshestProxy pool cs (some loc) = none) := by
  have hav0 : availableProxies pool cs (some loc)
      = if loc ≠ "" then pool.filter (fun p => p.location == loc)
        else antiRepeatFilter pool cs.last_location := rfl
  have hav : availableProxies pool cs (some loc) = pool.filter (fun p => p.location == loc) := by
    rw [hav0, if_pos hloc]
  constructor
  · rintro ⟨p, hp, hpl⟩
    have hmem : p ∈ pool.filter (fun r => r.location == loc) := by
      rw [List.mem_filter]
      exact ⟨hp, by simpa using hpl⟩
    have hne : availableProxies pool cs (some loc) ≠ [] := by
      rw [hav]
      exact List.ne_nil_of_mem hmem
    obtain ⟨q, hq, hqm, _⟩ := selectFreshestProxy_spec pool cs (some loc) hne
    rw [hav, List.mem_filter] at hqm
    exact ⟨q, hq, hqm.1, by simpa using hqm.2⟩
  · intro hnone
    apply selectFreshestProxy_of_empty
    rw [hav, List.filter_eq_nil_iff]
    intro a ha
    simpa using hnone a ha

/-- C8, amended, witness: preferred location `"EU"` over a pool with one
`"US"` and one `"EU"` relay — selection returns a member located in
`"EU"`. -/
theorem C8_preferred_location_amended_witness :
    (∃ p ∈ [pA, pC], p.location = "EU") ∧
    (∃ q, selectFreshestProxy [pA, pC] defaultClientState (some "EU") = some q ∧
      q ∈ [pA, pC] ∧ q.location = "EU") :=
  ⟨by decide,
    (C8_preferred_location_amended [pA, pC] defaultClientState "EU" (by decide)).1 (by decide)⟩

/-- C9.  History cap: starting from any state whose history holds at most
100 entries, any sequence of `updateClientProxy` commits keeps
`rotation_history.length ≤ 100`; and starting from an empty history, after
more than 100 proxy-changing rotations (the ones that push a history
entry) the history is exactly the 100 most recent entries — the oldest
were evicted first. -/
theorem C9_history_cap (cs : ClientState) (evs : List RotationEvent) :
    (cs.rotation_history.length ≤ 100 →
      (applyRotations cs evs).rotation_history.length ≤ 100) ∧
    (cs.rotation_history = [] → (∀ e ∈ evs, eventPushes e) → 100 < evs.length →
      (applyRotations cs evs).rotation_history
          = (evs.map entryOf).drop (evs.length - 100) ∧
        (applyRotations cs evs).rotation_history.length = 100) := by
  constructor
  · intro h
    exact applyRotations_history_length evs cs h
  · intro hnil hp hlen
    have h0 : cs.rotation_history.length ≤ 100 := by
      rw [hnil]
      simp
    have hh := applyRotations_history evs cs h0 hp
    rw [hnil] at hh
    simp only [List.nil_append] at hh
    constructor
    · rw [hh]
      unfold lastN
      rw [List.length_map]
    · rw [hh]
      unfold lastN
      rw [List.length_drop, List.length_map]
      omega

/-- C9, witness: 101 consecutive proxy-changing rotations from a fresh
client leave exactly 100 history entries, namely all but the first (the
oldest was evicted). -/
theorem C9_history_cap_witness :
    defaultClientState.rotation_history = [] ∧
    (∀ e ∈ evs101, eventPushes e) ∧
    100 < evs101.length ∧
    ((applyRotations defaultClientState evs101).rotation_history
        = (evs101.map entryOf).drop (evs101.length - 100) ∧
      (applyRotations defaultClientState evs101).rotation_history.length = 100) :=
  ⟨rfl, by decide, by decide,
    (C9_history_cap defaultClientState evs101).2 rfl (by decide) (by decide)⟩

/-- C10.  The empty string is the no-proxy sentinel: a freshly initialized
`ClientState` carries `current_proxy = ""`; for any client whose state has
`current_proxy = ""`, `getCurrentProxy` returns `none` and the scheduler
tick takes the first-time-assignment branch (`assignProxyToClient`) rather
than a rotation — an assignment that never notifies and never pushes a
history entry (it passes no `oldProxy` to `updateClientProxy`). -/
theorem C10_empty_proxy_sentinel (pool : List Proxy) (writeOk : Bool) (now intervalMs : Int)
    (st : StateMap) (name : String) (cs : ClientState)
    (hcs : getClientState st name = some cs) (hempty : cs.current_proxy = "") :
    defaultClientState.current_proxy = "" ∧
    getCurrentProxy st name = none ∧
    processClient pool writeOk now intervalMs st name
      = assignProxyToClient pool writeOk now st name ∧
    (assignProxyToClient pool writeOk now st name).notified = false ∧
    (∀ cs', getClientState (assignProxyToClient pool writeOk now st name).state name = some cs' →
      cs'.rotation_history = cs.rotation_history) := by
  have hinit := initializeClientState_of_some st name cs hcs
  refine ⟨rfl, ?_, ?_, ?_, ?_⟩
  · simp only [getCurrentProxy, hcs]
    rw [if_pos hempty]
  · simp only [processClient, hcs, hempty]
    simp
  · simp only [assignProxyToClient, hinit]
    split
    · rfl
    · rfl
  · intro cs' hcs'
    simp only [assignProxyToClient, hinit] at hcs'
    split at hcs'
    · rw [hcs] at hcs'
      injection hcs' with h'
      rw [← h']
    · rename_i sel hsel
      have hupd := updateClientProxy_getClientState st name sel.url sel.location
        none none now writeOk
      rw [hinit] at hupd
      simp only at hupd hcs'
      rw [hupd] at hcs'
      injection hcs' with h'
      rw [← h']
      exact applyProxyUpdate_history_no_push cs sel.url sel.location none now

/-- C10, witness: a freshly initialized client `"c1"`. -/
theorem C10_empty_proxy_sentinel_witness :
    getClientState [("c1", defaultClientState)] "c1" = some defaultClientState ∧
    getCurrentProxy [("c1", defaultClientState)] "c1" = none ∧
    processClient [pA] true 5000 1000 [("c1", defaultClientState)] "c1"
      = assignProxyToClient [pA] true 5000 [("c1", defaultClientState)] "c1" ∧
    (assignProxyToClient [pA] true 5000 [("c1", defaultClientState)] "c1").notified = false :=
  ⟨by decide,
    (C10_empty_proxy_sentinel [pA] true 5000 1000 [("c1", defaultClientState)] "c1"
      defaultClientState (by decide) rfl).2.1,
    (C10_empty_proxy_sentinel [pA] true 5000 1000 [("c1", defaultClientState)] "c1"
      defaultClientState (by decide) rfl).2.2.1,
    (C10_empty_proxy_sentinel [pA] true 5000 1000 [("c1", defaultClientState)] "c1"
      defaultClientState (by decide) rfl).2.2.2.1⟩

end WGProxy
